import Mathlib

/-!
Verification development for the multi-engine document extraction pipeline
(orchestration script scripts/02_test_extraction.py together with the
quality package src/quality and the extractor package src/extractors).

Conventions of the embedding:
* Python floats are modelled by exact rationals; all numeric constants of
  the source (thresholds, weights, scores) are exactly representable.
* Python dicts with integer keys (per-page text maps) are modelled by
  association lists in insertion order; lookup takes the first match.
* Strings are modelled by Lean strings; the source operates on ASCII
  claim-relevant inputs, and the Unicode normalisation step (NFD / NFC)
  is modelled as the identity composed with a combining-mark filter over
  the combining blocks relevant to Arabic-script text.
-/

/-! ## Whitespace and basic character classes (Python `\s`, `str.strip`, `str.split`) -/

/-- Models the Python whitespace class for the ASCII range: space, tab,
newline, carriage return, vertical tab, form feed. -/
def isPySpace (c : Char) : Bool :=
  c = ' ' || c = '\t' || c = '\n' || c = '\r' || c = '\x0b' || c = '\x0c'

/-- Models Python `str.strip()` on a character list: drop leading and
trailing whitespace. -/
def pyStripChars (l : List Char) : List Char :=
  ((l.dropWhile isPySpace).reverse.dropWhile isPySpace).reverse

/-- Models Python `str.split()` (no separator argument): split on runs of
whitespace, discarding empty fragments.  The first argument accumulates the
current word in reverse. -/
def pySplitGo (cur : List Char) : List Char → List (List Char)
  | [] => if cur.isEmpty then [] else [cur.reverse]
  | c :: rest =>
    if isPySpace c then
      if cur.isEmpty then pySplitGo [] rest else cur.reverse :: pySplitGo [] rest
    else pySplitGo (c :: cur) rest

/-- Models Python `str.split()`. -/
def pySplitWs (l : List Char) : List (List Char) := pySplitGo [] l

/-- Models `re.sub(r'\s+', ' ', text)`: collapse every whitespace run to a
single space.  The flag records whether a whitespace run is pending. -/
def collapseWsGo : Bool → List Char → List Char
  | _, [] => []
  | inRun, c :: rest =>
    if isPySpace c then collapseWsGo true rest
    else if inRun then ' ' :: c :: collapseWsGo false rest
    else c :: collapseWsGo false rest

/-- Models `re.sub(r'\s+', ' ', text).strip()` (the final step of
`strip_markdown` and of `normalize_arabic_text` in src/quality/similarity.py).
After the collapse only single spaces remain, and a run at the start emits a
single leading space, so stripping means dropping one leading space; a
trailing run emits nothing in `collapseWsGo`. -/
def collapseAndStrip (l : List Char) : List Char :=
  match collapseWsGo false l with
  | ' ' :: rest => rest
  | other => other

/-! ## strip_markdown (src/quality/similarity.py lines 18-26)

The five regex substitutions are modelled operationally in source order:
HTML comments, Markdown headings, bold or italic markers, table pipes and
horizontal rules, followed by whitespace collapsing. -/

/-- Decides whether a comment closer `-->` occurs in the list (a `<!--`
without a closer is not matched by the non-greedy `<!--.*?-->` pattern and
is left in place). -/
def hasCommentClose : List Char → Bool
  | '-' :: '-' :: '>' :: _ => true
  | _ :: rest => hasCommentClose rest
  | [] => false

/-- Drops characters up to and including the first `-->`. -/
def dropCommentClose : List Char → List Char
  | '-' :: '-' :: '>' :: rest => rest
  | _ :: rest => dropCommentClose rest
  | [] => []

/-- Models `re.sub(r'<!--.*?-->', ' ', text, flags=DOTALL)`: each HTML
comment is replaced by one space.  The fuel argument (instantiated with the
list length, which bounds the number of scanning steps since every step
consumes at least one character) keeps the recursion structural so that the
kernel can evaluate the function on concrete inputs. -/
def stripCommentsGo : Nat → List Char → List Char
  | 0, l => l
  | fuel + 1, '<' :: '!' :: '-' :: '-' :: rest =>
    if hasCommentClose rest then ' ' :: stripCommentsGo fuel (dropCommentClose rest)
    else '<' :: stripCommentsGo fuel ('!' :: '-' :: '-' :: rest)
  | fuel + 1, c :: rest => c :: stripCommentsGo fuel rest
  | _ + 1, [] => []

/-- Entry point of the comment stripper. -/
def stripComments (l : List Char) : List Char := stripCommentsGo l.length l

/-- State of the heading-stripping scanner: scanning normally (with a flag
for being at a line start), consuming a run of hashes, or consuming the
whitespace following the hashes (with a flag for whether the last consumed
whitespace character was a newline, which re-enables the line anchor). -/
inductive HeadState where
  | normal (atStart : Bool)
  | hashRun
  | wsRun (lastNl : Bool)

/-- Models `re.sub(r'^#+\s*', '', text, flags=MULTILINE)` as a single pass:
at a line anchor a run of hashes and the following whitespace (which may
span newlines, as Python `\s` does) are dropped. -/
def stripHeadingsGo : HeadState → List Char → List Char
  | _, [] => []
  | .normal true, '#' :: rest => stripHeadingsGo .hashRun rest
  | .normal _, '\n' :: rest => '\n' :: stripHeadingsGo (.normal true) rest
  | .normal _, c :: rest => c :: stripHeadingsGo (.normal false) rest
  | .hashRun, '#' :: rest => stripHeadingsGo .hashRun rest
  | .hashRun, c :: rest =>
    if isPySpace c then stripHeadingsGo (.wsRun (c = '\n')) rest
    else c :: stripHeadingsGo (.normal false) rest
  | .wsRun _, '#' :: rest => stripHeadingsGo .hashRun rest
  | .wsRun nl, c :: rest =>
    if isPySpace c then stripHeadingsGo (.wsRun (c = '\n')) rest
    else c :: stripHeadingsGo (.normal (nl && false)) rest

/-- Entry point of the heading stripper (scan starts at a line anchor). -/
def stripHeadings (l : List Char) : List Char := stripHeadingsGo (.normal true) l

/-- Models `re.sub(r'\*+|_{1,2}', '', text)`: every asterisk and underscore
is removed. -/
def stripBoldItalic (l : List Char) : List Char :=
  l.filter (fun c => !(c = '*' || c = '_'))

/-- Models `re.sub(r'\|', ' ', text)`: table pipes become spaces. -/
def stripTablePipes (l : List Char) : List Char :=
  l.map (fun c => if c = '|' then ' ' else c)

/-- Splits a character list into lines at newline characters (the newline
separators are reinserted by `joinLinesNl`). -/
def splitOnNl : List Char → List (List Char)
  | [] => [[]]
  | '\n' :: rest => [] :: splitOnNl rest
  | c :: rest =>
    match splitOnNl rest with
    | [] => [[c]]
    | l :: ls => (c :: l) :: ls

/-- Rejoins lines with newline separators. -/
def joinLinesNl : List (List Char) → List Char
  | [] => []
  | [l] => l
  | l :: ls => l ++ '\n' :: joinLinesNl ls

/-- Decides whether a line is a horizontal rule: three or more dashes
followed only by whitespace, as matched by `r'^-{3,}\s*$'` within one line. -/
def isHrLine (l : List Char) : Bool :=
  let dashes := l.takeWhile (fun c => c = '-')
  decide (3 ≤ dashes.length) && (l.drop dashes.length).all isPySpace

/-- Models `re.sub(r'^-{3,}\s*$', '', text, flags=MULTILINE)` line-wise:
horizontal-rule lines are emptied. -/
def stripHrLines (l : List Char) : List Char :=
  joinLinesNl ((splitOnNl l).map (fun line => if isHrLine line then [] else line))

/-- Models `strip_markdown` from src/quality/similarity.py: the five
substitutions in source order, then whitespace collapse and strip. -/
def stripMarkdown (s : String) : String :=
  String.mk (collapseAndStrip
    (stripHrLines (stripTablePipes (stripBoldItalic (stripHeadings
      (stripComments s.toList))))))

/-! ## normalize_arabic_text (src/quality/similarity.py lines 29-61) -/

/-- Models the Unicode combining-mark class (category Mn) over the blocks
relevant to the texts this pipeline compares: combining diacritical marks,
and the Arabic tashkeel and Quranic annotation ranges. -/
def isCombiningMark (c : Char) : Bool :=
  let v := c.toNat
  (0x300 ≤ v && v ≤ 0x36F) ||
  (0x610 ≤ v && v ≤ 0x61A) ||
  (0x64B ≤ v && v ≤ 0x65F) ||
  v = 0x670 ||
  (0x6D6 ≤ v && v ≤ 0x6DC) ||
  (0x6DF ≤ v && v ≤ 0x6E4) ||
  v = 0x6E7 || v = 0x6E8 ||
  (0x6EA ≤ v && v ≤ 0x6ED) ||
  (0x8D3 ≤ v && v ≤ 0x8FF)

/-- Models `normalize_arabic_text`: empty input maps to the empty string;
otherwise combining marks are removed (the NFD decomposition and NFC
recomposition are modelled as the identity, which is exact on inputs
without precomposed base-plus-mark characters) and whitespace is collapsed
and stripped. -/
def normalizeArabicText (s : String) : String :=
  if s = "" then ""
  else String.mk (collapseAndStrip (s.toList.filter (fun c => !isCombiningMark c)))

/-! ## Levenshtein.ratio (the similarity kernel of compute_similarity)

`Levenshtein.ratio` computes the normalised InDel similarity
`1 - dist / (len1 + len2)` where `dist` is the edit distance with
insertions and deletions of cost 1 and substitutions of cost 2; that
distance equals `len1 + len2 - 2 * lcs`.  The longest common subsequence
is computed by a structurally recursive row dynamic programme so that the
kernel can evaluate it on concrete inputs. -/

/-- One row step of the LCS dynamic programme.  Arguments: the current
character of the first string, the remaining characters of the second
string, the tail of the previous row starting at the current column, and
the value just computed in the new row. -/
def lcsNext (x : Char) : List Char → List Nat → Nat → List Nat
  | y :: ys, oj :: rest, cur =>
    let v := if x = y then oj + 1 else max cur (rest.headD 0)
    v :: lcsNext x ys rest v
  | _, _, _ => []

/-- Length of the longest common subsequence of two character lists. -/
def lcsLen (xs ys : List Char) : Nat :=
  (xs.foldl (fun row x => 0 :: lcsNext x ys row 0)
    (List.replicate (ys.length + 1) 0)).getLastD 0

/-- Models `Levenshtein.ratio` as the normalised InDel similarity. -/
def indelSimilarity (a b : List Char) : ℚ :=
  let lensum := a.length + b.length
  if lensum = 0 then 1
  else 1 - (((lensum : ℚ) - 2 * lcsLen a b) / (lensum : ℚ))

/-- Models `compute_similarity` from src/quality/similarity.py: strip
Markdown, normalise, return 0 when either normalised text is empty, and
the Levenshtein ratio otherwise. -/
def computeSimilarity (text1 text2 : String) : ℚ :=
  let norm1 := normalizeArabicText (stripMarkdown text1)
  let norm2 := normalizeArabicText (stripMarkdown text2)
  if norm1 = "" || norm2 = "" then 0
  else indelSimilarity norm1.toList norm2.toList

/-! ## Extraction result data model (the extractor contract of the source)

Every engine returns a dict with keys text, confidence, method,
metadata.success, page_texts and error; the diagnostic metadata entries
(page_count, pages_sampled, format, language) do not feed any decision
modelled here and are omitted. -/

/-- Models an extraction result dict. -/
structure ExtractionResult where
  text : Option String
  confidence : ℚ
  method : String
  success : Bool
  pageTexts : List (Nat × String)
  error : Option String
deriving DecidableEq

/-- Models the timeout message `f'timeout after {seconds}s'`. -/
def timeoutMsg (seconds : Nat) : String :=
  "timeout after " ++ toString seconds ++ "s"

/-- Models `_timeout_error` from scripts/02_test_extraction.py. -/
def timeoutError (name : String) (seconds : Nat) : ExtractionResult :=
  { text := none, confidence := 0, method := name, success := false,
    pageTexts := [], error := some (timeoutMsg seconds) }

/-- Models `_exc_error` from scripts/02_test_extraction.py. -/
def excError (name msg : String) : ExtractionResult :=
  { text := none, confidence := 0, method := name, success := false,
    pageTexts := [], error := some msg }

/-- Models `dict.get(key)` on a per-page text map. -/
def lookupPage (pts : List (Nat × String)) (k : Nat) : Option String :=
  (pts.find? (fun p => p.1 = k)).map (fun p => p.2)

/-! ## Vision gate (scripts/02_test_extraction.py lines 376-385 and 578-591) -/

/-- Models the score list built by `vision_gate_score`: for every sampled
page index of the Vision result (0-based), the Docling page at index + 1
(1-based) is looked up with default empty string, and a similarity is
recorded when both texts are non-empty (Python truthiness on strings). -/
def gateScores (doclingResult visionResult : ExtractionResult) : List ℚ :=
  visionResult.pageTexts.filterMap (fun p =>
    let dText := (lookupPage doclingResult.pageTexts (p.1 + 1)).getD ""
    if p.2 ≠ "" ∧ dText ≠ "" then some (computeSimilarity p.2 dText) else none)

/-- Models `vision_gate_score`: the mean of the page scores, or 0.0 when no
page pair was scored. -/
def visionGateScore (doclingResult visionResult : ExtractionResult) : ℚ :=
  let scores := gateScores doclingResult visionResult
  if scores = [] then 0 else scores.sum / scores.length

/-- Models the gate threshold default `VISION_THRESHOLD = 0.5`. -/
def VISION_THRESHOLD : ℚ := 1/2

/-- Models the Phase-2 gate decision of `main` (lines 578-591): the flag
starts as `not vision_available`; when the Vision result is present with no
error and the Docling text is non-empty, the gate runs and a score below
the threshold forces the fallback, while a score at or above the threshold
leaves the flag at its initial value. -/
def needsTesseract (visionAvailable : Bool) (visionResult : Option ExtractionResult)
    (doclingResult : ExtractionResult) (threshold : ℚ) : Bool :=
  let doclingText := doclingResult.text.getD ""
  let base := !visionAvailable
  match visionResult with
  | none => base
  | some vr =>
    if vr.error = none ∧ doclingText ≠ "" then
      if visionGateScore doclingResult vr ≥ threshold then base else true
    else base

/-- Models the Phase-3 guard (line 594): Tesseract actually runs only when
the gate requires it and the fallback engine is available. -/
def tesseractRuns (needs tesseractAvailable : Bool) : Bool :=
  needs && tesseractAvailable

/-! ## Result envelopes and the stale-result drain
(scripts/02_test_extraction.py lines 253-281) -/

deriving instance DecidableEq for Except

/-- Models an entry of the persistent Docling result queue after startup:
the tuple `('ok', doc_id, result)` becomes an `Except.ok` payload and
`('err', doc_id, error_str)` becomes an `Except.error` payload. -/
structure ResultEnvelope where
  docId : Nat
  payload : Except String ExtractionResult
deriving DecidableEq

/-- Models the non-blocking drain of the Docling result queue for the
current document: envelopes are read in arrival order, every envelope whose
id differs from the current `doc_id` is discarded, and the first envelope
bearing the current id (if any) is accepted, after which draining stops. -/
def drainDoclingQueue (docId : Nat) : List ResultEnvelope → Option ResultEnvelope
  | [] => none
  | e :: rest => if e.docId = docId then some e else drainDoclingQueue docId rest

/-- Models line 259: an `ok` envelope yields its result, an `err` envelope
yields `_exc_error('docling', value)`. -/
def interpretDoclingEnvelope (e : ResultEnvelope) : ExtractionResult :=
  match e.payload with
  | .ok r => r
  | .error m => excError "docling" m

/-- Models the Docling side of `run_phase1_parallel` for one document: the
arrival list contains every envelope the dispatcher reads from the queue
during this document's polling window; if none bears the current id before
the deadline, a synthetic timeout result is recorded (lines 277-281). -/
def phase1DoclingResult (docId : Nat) (arrivals : List ResultEnvelope)
    (timeout : Nat) : ExtractionResult :=
  match drainDoclingQueue docId arrivals with
  | some e => interpretDoclingEnvelope e
  | none => timeoutError "docling" timeout

/-- Models the document loop of `main`: `doc_id` starts at 0 and increases
by exactly 1 after each processed document (lines 528 and 556), so the
i-th processed document drains the queue with id `startId + i`. -/
def runDoclingDocs (startId timeout : Nat) : List (List ResultEnvelope) → List ExtractionResult
  | [] => []
  | q :: qs => phase1DoclingResult startId q timeout :: runDoclingDocs (startId + 1) timeout qs

/-! ## Worker protocol (scripts/02_test_extraction.py lines 116-147)

The persistent Docling worker communicates through tagged tuples; the tag
strings are modelled verbatim. -/

/-- Payload of a worker protocol message. -/
inductive WirePayload where
  | nothing
  | result (r : ExtractionResult)
  | errText (e : String)
deriving DecidableEq

/-- Models one tuple put on the worker result queue. -/
structure WireMsg where
  tag : String
  docId : Option Nat
  payload : WirePayload
deriving DecidableEq

/-- Models the message the worker emits for one task `(doc_id, file_path)`:
`('ok', doc_id, result)` when the extraction returns, `('err', doc_id,
str(e))` when it raises. -/
def taskMsg (extract : String → Except String ExtractionResult)
    (t : Nat × String) : WireMsg :=
  match extract t.2 with
  | .ok r => { tag := "ok", docId := some t.1, payload := .result r }
  | .error e => { tag := "err", docId := some t.1, payload := .errText e }

/-- Models the main loop of `_docling_persistent_worker`: tasks are read in
order, a `None` sentinel stops the loop, and each task yields exactly one
`ok` or `err` message. -/
def doclingWorkerLoop (extract : String → Except String ExtractionResult) :
    List (Option (Nat × String)) → List WireMsg
  | [] => []
  | none :: _ => []
  | some t :: rest => taskMsg extract t :: doclingWorkerLoop extract rest

/-- Models `_docling_persistent_worker` end to end: a failed one-time
initialisation emits `('init_err', None, str(e))` and exits; a successful
one emits `('ready', None, None)` and serves the task list. -/
def doclingWorkerRun (init : Except String Unit)
    (extract : String → Except String ExtractionResult)
    (tasks : List (Option (Nat × String))) : List WireMsg :=
  match init with
  | .error e => [{ tag := "init_err", docId := none, payload := .errText e }]
  | .ok _ => { tag := "ready", docId := none, payload := .nothing } :: doclingWorkerLoop extract tasks

/-- Models the per-document clock of `run_phase1_parallel` (lines 246-247):
`start` is taken immediately after the task is put on the queue, and the
deadline is `start + timeout`. -/
def phase1Deadline (dispatchTime timeout : Nat) : Nat := dispatchTime + timeout

/-! ## Worker startup (scripts/02_test_extraction.py lines 175-206 and 509-515) -/

/-- Models what `start_docling_worker` observes while waiting on the result
queue within the startup timeout: a `ready` tuple, an `init_err` tuple, or
no message at all before the deadline. -/
inductive StartupSignal where
  | ready
  | initErr (msg : String)
  | noSignal
deriving DecidableEq

/-- Actions the manager takes on the single pooled worker process. -/
inductive MgrAction where
  | terminateWorker
  | joinWorker
deriving DecidableEq

/-- Models `start_docling_worker`: on `ready` the handle is returned with no
further action; on `init_err` or on expiry of the startup timeout the worker
process is terminated and joined and a `RuntimeError` is raised (modelled as
`Except.error` carrying the exception message). -/
def startDoclingWorker (startupTimeout : Nat) (sig : StartupSignal) :
    Except String Unit × List MgrAction :=
  match sig with
  | .ready => (.ok (), [])
  | .initErr m =>
    (.error ("Docling worker init failed: " ++ m), [.terminateWorker, .joinWorker])
  | .noSignal =>
    (.error ("Docling worker did not start within " ++ toString startupTimeout ++ "s"),
      [.terminateWorker, .joinWorker])

/-- Models the startup step of `main` (lines 509-515) together with the
document loop that follows it: when `start_docling_worker` raises, `main`
prints the error and returns exit code 1 before the loop is entered, so no
task is ever put on the pool task queue; on success the loop dispatches the
document tasks.  The result is the pair of the exit path taken and the
tasks dispatched to the pool. -/
def mainAfterStartup (startup : Except String Unit) (docs : List (Nat × String)) :
    Nat × List (Nat × String) :=
  match startup with
  | .error _ => (1, [])
  | .ok _ => (0, docs)

/-! ## Fallback supervisor (scripts/02_test_extraction.py lines 328-371)

The supervising loop checks the child once per one-second sleep; the tick
list holds what the supervisor observes at each iteration: whether the
child process is alive, the value `_mem_gb()` returns — which is the
resident set size of the CURRENT process, i.e. of the supervisor itself,
`psutil.Process().memory_info().rss` with no pid argument (lines 66-73),
or `None` when psutil is unavailable — and, for specification purposes
only, the resident set size of the fallback child process, which the
source never reads. -/

/-- One observation of the supervising loop. -/
structure MemTick where
  alive : Bool
  supervisorRssGb : Option ℚ
  fallbackRssGb : ℚ
deriving DecidableEq

/-- Actions the supervisor takes on the fallback child process. -/
inductive ProcAction where
  | terminateProc
  | joinGrace (seconds : Nat)
  | killProc
  | joinProc
deriving DecidableEq

/-- Models the kill escalation used on timeout and on memory abort:
`p.terminate()`, `p.join(timeout=3)`, and `p.kill(); p.join()` only when
the process is still alive after the bounded join. -/
def killEscalation (survivedTerminate : Bool) : List ProcAction :=
  [.terminateProc, .joinGrace 3] ++ (if survivedTerminate then [.killProc, .joinProc] else [])

/-- Models the module constant `MEM_ABORT_GB = 4.0`.  Note that the loop
compares against this global constant; the `--mem-limit` command line value
is parsed but never reaches `run_tesseract_in_process`. -/
def MEM_ABORT_GB : ℚ := 4

/-- Models the message `f'memory limit {MEM_ABORT_GB}GB exceeded'`
(Python renders the float 4.0 as `4.0`). -/
def memAbortMsg : String := "memory limit 4.0GB exceeded"

/-- Models the read of the result queue after the child exits on its own
(lines 368-371): a present `ok` tuple yields its payload, a present `err`
tuple yields `_exc_error`, an empty queue yields the exited-without-result
error. -/
def finishFromQueue (queueAtExit : Option (Except String ExtractionResult)) : ExtractionResult :=
  match queueAtExit with
  | some (.ok r) => r
  | some (.error e) => excError "tesseract" e
  | none => excError "tesseract" "process exited without result"

/-- Models `run_tesseract_in_process`: the loop runs while the child is
alive; at each iteration `elapsed` has grown by one second; the timeout
check precedes the memory check; the memory condition is Python
`mem and mem > MEM_ABORT_GB`, i.e. the sampled value is not `None`, not
zero, and above the ceiling.  The function returns the extraction result
together with the process-management actions taken. -/
def runTesseractInProcess (timeout : Nat)
    (queueAtExit : Option (Except String ExtractionResult))
    (survivedTerminate : Bool) : Nat → List MemTick → ExtractionResult × List ProcAction
  | _, [] => (finishFromQueue queueAtExit, [.joinProc])
  | elapsed, t :: rest =>
    if t.alive = false then (finishFromQueue queueAtExit, [.joinProc])
    else if timeout ≤ elapsed then
      (timeoutError "tesseract" timeout, killEscalation survivedTerminate)
    else
      match t.supervisorRssGb with
      | some m =>
        if m ≠ 0 ∧ MEM_ABORT_GB < m then
          (excError "tesseract" memAbortMsg, killEscalation survivedTerminate)
        else runTesseractInProcess timeout queueAtExit survivedTerminate (elapsed + 1) rest
      | none => runTesseractInProcess timeout queueAtExit survivedTerminate (elapsed + 1) rest

/-! ## Vision page sampling (src/extractors/vision_extractor.py lines 22-31
and 77-84, scripts/02_test_extraction.py lines 149-158) -/

/-- Models Python `round` on an exact rational: round half to even. -/
def roundHalfEven (q : ℚ) : ℤ :=
  let f := ⌊q⌋
  let r := q - f
  if r < 1/2 then f
  else if 1/2 < r then f + 1
  else if f % 2 = 0 then f else f + 1

/-- Inserts an integer into a sorted duplicate-free list, keeping it sorted
and duplicate-free. -/
def insertSortedDedup (x : ℤ) : List ℤ → List ℤ
  | [] => [x]
  | y :: ys =>
    if x < y then x :: y :: ys
    else if x = y then y :: ys
    else y :: insertSortedDedup x ys

/-- Models Python `sorted(set(xs))`: ascending distinct values. -/
def sortDedup (l : List ℤ) : List ℤ := l.foldr insertSortedDedup []

/-- Models `_spread_indices`: all pages when the document has at most `n`
pages, otherwise `sorted(set(round(i * step)))` for `step = (total-1)/(n-1)`
(Python float arithmetic modelled by exact rationals). -/
def spreadIndices (total n : Nat) : List ℤ :=
  if total ≤ n then (List.range total).map Int.ofNat
  else
    let step : ℚ := ((total : ℚ) - 1) / ((n : ℚ) - 1)
    sortDedup ((List.range n).map (fun i : ℕ => roundHalfEven ((i : ℚ) * step)))

/-- Models the page-index selection of `VisionExtractor.extract` (lines
77-84): explicit `page_indices` are filtered to the valid range and
override every other mode; otherwise spread sampling, a first-pages
sample, or all pages. -/
def visionExtractIndices (total : Nat) (pageIndices : Option (List ℤ))
    (spread sampleOnly : Bool) (maxPages nPages : Nat) : List ℤ :=
  match pageIndices with
  | some pis => pis.filter (fun i => decide (0 ≤ i ∧ i < (total : ℤ)))
  | none =>
    if spread && sampleOnly then spreadIndices total nPages
    else if sampleOnly then (List.range (min maxPages total)).map Int.ofNat
    else (List.range total).map Int.ofNat

/-- Models the page set the orchestration actually samples: `_vision_worker`
(lines 149-158) calls `extract` with the explicit override
`page_indices=list(range(n_pages))`, the keyword defaults `sample_only=True`,
`spread=True`, `max_pages=1`, `n_pages=3` being irrelevant under an explicit
override. -/
def visionWorkerSampledIndices (total nPages : Nat) : List ℤ :=
  visionExtractIndices total (some ((List.range nPages).map Int.ofNat)) true true 1 3

/-! ## Resumable ledger (scripts/02_test_extraction.py lines 517-525,
539-541, 637-648 and 424-430) -/

/-- Models one element of the results JSON array.  The slimmed witness
dicts and the quality dict are collapsed into representative scalar fields;
`item_key` is the identity used by the resume skip check. -/
structure LedgerEntry where
  itemKey : String
  title : String
  file : String
  usedTesseract : Bool
  qualityScore : ℚ
deriving DecidableEq

/-- Models `done_keys = {r['item_key'] for r in results}` (line 522). -/
def doneKeySet (results : List LedgerEntry) : List String :=
  results.map (fun e => e.itemKey)

/-- Models the document loop of `main` restricted to ledger behaviour: the
done-set is computed once from the loaded ledger; a sample whose key is in
it is skipped entirely, every other sample is processed and appends exactly
one entry (line 638).  The per-document processing is abstracted by
`mkEntry`, which builds the appended entry from the key and path. -/
def processBatch (mkEntry : String → String → LedgerEntry)
    (results0 : List LedgerEntry) (samples : List (String × String)) : List LedgerEntry :=
  let done := doneKeySet results0
  samples.foldl (fun acc s => if s.1 ∈ done then acc else acc ++ [mkEntry s.1 s.2]) results0

/-- Models the observable filesystem operations of `save_results` (lines
424-430): a sequence of partial writes growing the temporary file, then one
atomic rename of the temporary file over the output file. -/
inductive FsOp where
  | writeTmpChunk (content : List LedgerEntry)
  | renameTmpOverOutput
deriving DecidableEq

/-- Contents of the temporary file and of the output file (`none` means the
file does not exist). -/
structure DiskState where
  tmpFile : Option (List LedgerEntry)
  outputFile : Option (List LedgerEntry)
deriving DecidableEq

/-- Applies one filesystem operation: a chunk write replaces the temporary
file content (json.dump writes the serialisation incrementally, modelled as
successive prefixes); the rename atomically moves the temporary file over
the output file. -/
def applyFsOp (d : DiskState) : FsOp → DiskState
  | .writeTmpChunk c => { d with tmpFile := some c }
  | .renameTmpOverOutput => { tmpFile := none, outputFile := d.tmpFile }

/-- Applies a sequence of filesystem operations. -/
def applyFsOps (d : DiskState) (ops : List FsOp) : DiskState := ops.foldl applyFsOp d

/-- The operation sequence of one `save_results` call: the temporary file
grows through every prefix of the serialised ledger, then the rename. -/
def saveResultsOps (results : List LedgerEntry) : List FsOp :=
  ((List.range (results.length + 1)).map (fun n => FsOp.writeTmpChunk (results.take n)))
    ++ [FsOp.renameTmpOverOutput]

/-- Models line 638: after a document finishes (success, timeout, or error
— all outcomes flow through the same append), exactly one entry is appended
to the in-memory ledger. -/
def ledgerAfterDocument (results : List LedgerEntry) (entry : LedgerEntry) : List LedgerEntry :=
  results ++ [entry]

/-! ## Corruption detection (src/quality/corruption_detector.py)

`compute_quality_metrics` calls `detect_corruption` with the default
language `'arabic'`, so the Arabic-specific checks always run.  The issue
message strings are modelled without their interpolated numeric values
(only the length of the issue list feeds the score); the diagnostic
`metrics` dict feeds nothing and is omitted. -/

/-- Models the Arabic character class of the source regex
`[؀-ۿݐ-ݿࢠ-ࣿﭐ-﷿ﹰ-﻿]`. -/
def isArabicChar (c : Char) : Bool :=
  let v := c.toNat
  (0x0600 ≤ v && v ≤ 0x06FF) ||
  (0x0750 ≤ v && v ≤ 0x077F) ||
  (0x08A0 ≤ v && v ≤ 0x08FF) ||
  (0xFB50 ≤ v && v ≤ 0xFDFF) ||
  (0xFE70 ≤ v && v ≤ 0xFEFF)

/-- Models Python `\w` for the inputs this pipeline sees: ASCII
alphanumerics and underscore (the Arabic word characters are handled by
the separate Arabic class wherever the source unions the two). -/
def isWordChar (c : Char) : Bool :=
  c.isAlphanum || c = '_'

/-- Decides whether the text contains five or more consecutive equal
characters, as matched by `r'(.)\1{4,}'` (the dot does not match a
newline). -/
def hasRepeatRun : List Char → Bool
  | a :: b :: c :: d :: e :: rest =>
    (a = b && b = c && c = d && d = e && !(a = '\n')) || hasRepeatRun (b :: c :: d :: e :: rest)
  | _ => false

/-- Result of `detect_corruption`. -/
structure CorruptionReport where
  isCorrupt : Bool
  corruptionScore : ℚ
  issues : List String
deriving DecidableEq

/-- Minimum of a rational list with an explicit default for the empty
list, as in Python `min(xs, default=d)`. -/
def listMinD (dflt : ℚ) : List ℚ → ℚ
  | [] => dflt
  | x :: xs => xs.foldl min x

/-- Maximum of a rational list with an explicit default for the empty
list. -/
def listMaxD (dflt : ℚ) : List ℚ → ℚ
  | [] => dflt
  | x :: xs => xs.foldl max x

/-- Models `detect_corruption` with the default language `'arabic'`:
short or empty text is maximally corrupt; otherwise up to four issues are
collected (low Arabic ratio, excessive symbols, fragmentation, repeated
characters) and the score is `min(len(issues)/4, 1.0)`. -/
def detectCorruption (text : String) : CorruptionReport :=
  let cs := text.toList
  if text = "" ∨ (pyStripChars cs).length < 10 then
    { isCorrupt := true, corruptionScore := 1, issues := ["Text too short or empty"] }
  else
    let arabicChars := (cs.filter isArabicChar).length
    let totalChars := (cs.filter (fun c => !isPySpace c)).length
    let issues1 :=
      if 0 < totalChars ∧ (arabicChars : ℚ) / totalChars < 1/2 then
        ["Low Arabic character ratio"] else []
    let symbolCount := (cs.filter (fun c => !(isWordChar c || isPySpace c || isArabicChar c))).length
    let symVal : ℚ := if 0 < totalChars then (symbolCount : ℚ) / totalChars else 0
    let issues2 := if 3/10 < symVal then ["Excessive symbols/artifacts"] else []
    let words := pySplitWs cs
    let issues3 :=
      if words ≠ [] ∧ ((words.map List.length).sum : ℚ) / words.length < 2 then
        ["Excessive fragmentation"] else []
    let issues4 := if hasRepeatRun cs then ["Repeated character sequences"] else []
    let issues := issues1 ++ issues2 ++ issues3 ++ issues4
    let score := min ((issues.length : ℚ) / 4) 1
    { isCorrupt := 1/2 < score, corruptionScore := score, issues := issues }

/-! ## Pairwise similarity and quality metrics
(src/quality/similarity.py lines 87-142, src/quality/__init__.py) -/

/-- Result of `pairwise_similarities`. -/
structure SimilarityReport where
  pairs : List (String × ℚ)
  average : ℚ
  maxScore : ℚ
  minScore : ℚ
  witnessCount : Nat
deriving DecidableEq

/-- Models the text extraction filter of `pairwise_similarities` (lines
107-112): witnesses with a truthy (present, non-empty) text and `error is
None`. -/
def usableTexts (witnesses : List (String × ExtractionResult)) : List (String × String) :=
  witnesses.filterMap (fun w =>
    match w.2.text with
    | some t => if t ≠ "" ∧ w.2.error = none then some (w.1, t) else none
    | none => none)

/-- Models the nested pair loop (lines 127-131): every unordered pair in
key order, keyed `name1_vs_name2`. -/
def pairKeyScores : List (String × String) → List (String × ℚ)
  | [] => []
  | t :: rest =>
    (rest.map (fun w => (t.1 ++ "_vs_" ++ w.1, computeSimilarity t.2 w.2))) ++ pairKeyScores rest

/-- Models `pairwise_similarities`: fewer than two usable texts yield the
empty report with zero statistics; otherwise all pairwise scores with
average, maximum and minimum. -/
def pairwiseSimilarities (witnesses : List (String × ExtractionResult)) : SimilarityReport :=
  let texts := usableTexts witnesses
  if texts.length < 2 then
    { pairs := [], average := 0, maxScore := 0, minScore := 0, witnessCount := texts.length }
  else
    let pairs := pairKeyScores texts
    let sims := pairs.map (fun p => p.2)
    { pairs := pairs,
      average := if sims = [] then 0 else sims.sum / sims.length,
      maxScore := if sims = [] then 0 else listMaxD 0 sims,
      minScore := if sims = [] then 0 else listMinD 0 sims,
      witnessCount := texts.length }

/-- Result of `compute_quality_metrics`. -/
structure QualityReport where
  score : ℚ
  recommendation : String
  agreementScore : ℚ
  cleanlinessScore : ℚ
  similarity : SimilarityReport
  corruption : List (String × CorruptionReport)
deriving DecidableEq

/-- Models `compute_quality_metrics` from src/quality/__init__.py:
pairwise agreement, per-witness corruption for every witness with truthy
text (regardless of its error field), best-case cleanliness, the 70/30
weighted overall score, and the threshold-based recommendation. -/
def computeQualityMetrics (witnesses : List (String × ExtractionResult)) : QualityReport :=
  let similarity := pairwiseSimilarities witnesses
  let corruptionResults := witnesses.filterMap (fun w =>
    match w.2.text with
    | some t => if t ≠ "" then some (w.1, detectCorruption t) else none
    | none => none)
  let minCorruption := listMinD 1 (corruptionResults.map (fun p => p.2.corruptionScore))
  let agreementScore := similarity.average
  let cleanlinessScore := 1 - minCorruption
  let overallScore := 7/10 * agreementScore + 3/10 * cleanlinessScore
  let recomm :=
    if 85/100 ≤ overallScore then "auto_accept"
    else if 65/100 ≤ overallScore then "flag"
    else if 40/100 ≤ overallScore then "arbitrate"
    else "review"
  { score := overallScore, recommendation := recomm, agreementScore := agreementScore,
    cleanlinessScore := cleanlinessScore, similarity := similarity,
    corruption := corruptionResults }

/-! ## Shared concrete sample values used by witness theorems -/

/-- A successful sample extraction result. -/
def cSampleResult : ExtractionResult :=
  { text := some "sample text", confidence := 1, method := "docling", success := true,
    pageTexts := [(1, "sample text")], error := none }

/-- A sample ledger entry builder whose `itemKey` field is the key. -/
def cMkEntry : String → String → LedgerEntry :=
  fun k p => { itemKey := k, title := "title", file := p, usedTesseract := false, qualityScore := 0 }

/-- A sample ledger entry. -/
def cLedgerEntry : LedgerEntry := cMkEntry "K1" "a.pdf"

/-- The primary result of the gate boundary example: pages 1 and 2
(Docling page maps are 1-based). -/
def cDocling : ExtractionResult :=
  { text := some "A B C\n\nD E F", confidence := 1, method := "docling", success := true,
    pageTexts := [(1, "A B C"), (2, "D E F")], error := none }

/-- The secondary result with the page map keyed 1 as the claim literally
states it (Vision page maps are 0-based, so key 1 is the second sampled
page). -/
def cVision1 : ExtractionResult :=
  { text := some "A B C", confidence := 1, method := "google_vision", success := true,
    pageTexts := [(1, "A B C")], error := none }

/-- The secondary result with the page map keyed 0, i.e. the text of page 1
under the source's 0-based Vision keying. -/
def cVision0 : ExtractionResult :=
  { text := some "A B C", confidence := 1, method := "google_vision", success := true,
    pageTexts := [(0, "A B C")], error := none }

/-- A successful Vision result whose sampled page map is empty. -/
def cVisionEmptyOk : ExtractionResult :=
  { text := some "", confidence := 0, method := "google_vision", success := true,
    pageTexts := [], error := none }

/-- A successful sample Tesseract result. -/
def cTessOk : ExtractionResult :=
  { text := some "ocr text", confidence := 1, method := "tesseract", success := true,
    pageTexts := [], error := none }

/-- A sample extraction behaviour that always succeeds. -/
def cExtractOk : String → Except String ExtractionResult := fun _ => .ok cSampleResult

/-! ## Helper lemmas -/

/-- An accepted envelope always bears the id it was drained with. -/
lemma drainDoclingQueue_docId (docId : Nat) :
    ∀ (q : List ResultEnvelope) (e : ResultEnvelope),
      drainDoclingQueue docId q = some e → e.docId = docId := by
  intro q
  induction q with
  | nil => intro e h; simp [drainDoclingQueue] at h
  | cons e1 rest ih =>
    intro e h
    by_cases hid : e1.docId = docId
    · rw [drainDoclingQueue, if_pos hid] at h
      cases h
      exact hid
    · rw [drainDoclingQueue, if_neg hid] at h
      exact ih e h

/-- The i-th processed document drains with id `startId + i` and its result
is exactly the phase-1 result for that id. -/
lemma runDoclingDocs_get (timeout : Nat) :
    ∀ (qs : List (List ResultEnvelope)) (startId i : Nat) (q : List ResultEnvelope),
      qs.get? i = some q →
      (runDoclingDocs startId timeout qs).get? i
        = some (phase1DoclingResult (startId + i) q timeout) := by
  intro qs
  induction qs with
  | nil => intro startId i q h; simp at h
  | cons q0 rest ih =>
    intro startId i q h
    cases i with
    | zero =>
      simp at h
      subst h
      simp [runDoclingDocs]
    | succ j =>
      simp only [List.get?] at h
      have := ih (startId + 1) j q h
      simp only [runDoclingDocs, List.get?]
      rw [this]
      congr 2
      omega

/-! ## Claim theorems -/

/-- C2: stale-result hygiene.  Every envelope drained from the primary
result channel whose id differs from the current document's monotonic id
is discarded: (1) an accepted envelope always bears the current id, so at
most one envelope (the `Option` result of the drain) is accepted per
monotonic id; (2) an envelope bearing a stale id is never the accepted
one; (3) in the document loop the i-th document is drained with id
`startId + i`, so a late result for a timed-out document A (tagged with
A's id) can never enter the witness set of a later document B. -/
theorem C2_stale_result_hygiene :
    (∀ (docId : Nat) (q : List ResultEnvelope) (e : ResultEnvelope),
        drainDoclingQueue docId q = some e → e.docId = docId) ∧
    (∀ (docId : Nat) (q : List ResultEnvelope) (e : ResultEnvelope),
        e ∈ q → e.docId ≠ docId → drainDoclingQueue docId q ≠ some e) ∧
    (∀ (startId timeout : Nat) (qs : List (List ResultEnvelope)) (i : Nat)
        (q : List ResultEnvelope),
        qs.get? i = some q →
        (runDoclingDocs startId timeout qs).get? i
          = some (phase1DoclingResult (startId + i) q timeout)) := by
  refine ⟨fun docId q e h => drainDoclingQueue_docId docId q e h, ?_, ?_⟩
  · intro docId q e _ hne hacc
    exact hne (drainDoclingQueue_docId docId q e hacc)
  · intro startId timeout qs i q h
    exact runDoclingDocs_get timeout qs startId i q h

/-- Witness for C2 at a concrete input: during document 1, a late envelope
tagged with document 0's id sits in front of the queue; the drain discards
it, accepts the envelope tagged 1, and the run result for slot 1 is that
envelope's payload. -/
theorem C2_stale_result_hygiene_witness :
    (({ docId := 1, payload := Except.ok cSampleResult } : ResultEnvelope).docId = 1) ∧
    drainDoclingQueue 1
      [{ docId := 0, payload := Except.error "late" },
       { docId := 1, payload := Except.ok cSampleResult }]
      ≠ some { docId := 0, payload := Except.error "late" } ∧
    (runDoclingDocs 0 300
        [[], [{ docId := 0, payload := Except.error "late" },
              { docId := 1, payload := Except.ok cSampleResult }]]).get? 1
      = some (phase1DoclingResult 1
          [{ docId := 0, payload := Except.error "late" },
           { docId := 1, payload := Except.ok cSampleResult }] 300) :=
  ⟨C2_stale_result_hygiene.1 1
      [{ docId := 0, payload := Except.error "late" },
       { docId := 1, payload := Except.ok cSampleResult }]
      { docId := 1, payload := Except.ok cSampleResult } rfl,
   C2_stale_result_hygiene.2.1 1
      [{ docId := 0, payload := Except.error "late" },
       { docId := 1, payload := Except.ok cSampleResult }]
      { docId := 0, payload := Except.error "late" }
      (by simp) (by simp),
   C2_stale_result_hygiene.2.2 0 300
      [[], [{ docId := 0, payload := Except.error "late" },
            { docId := 1, payload := Except.ok cSampleResult }]] 1
      [{ docId := 0, payload := Except.error "late" },
       { docId := 1, payload := Except.ok cSampleResult }] rfl⟩

/-- C9: pool-startup abort atomicity.  The pool of this source holds
exactly one worker (`start_docling_worker` starts a single persistent
process), so the started-worker set is that worker: when it fails to
report readiness within the startup timeout or reports an initialisation
error, startup reports failure to the caller (the raised RuntimeError,
modelled as the error branch), the worker is terminated and joined, and
`main` exits with code 1 before the document loop, so no task is ever
dispatched to the pool. -/
theorem C9_pool_startup_abort :
    (∀ (startupTimeout : Nat) (sig : StartupSignal), sig ≠ .ready →
      (∃ m, (startDoclingWorker startupTimeout sig).1 = .error m) ∧
      (startDoclingWorker startupTimeout sig).2 = [.terminateWorker, .joinWorker]) ∧
    (∀ (e : String) (docs : List (Nat × String)),
      mainAfterStartup (.error e) docs = (1, [])) := by
  constructor
  · intro startupTimeout sig hne
    cases sig with
    | ready => exact absurd rfl hne
    | initErr m => exact ⟨⟨"Docling worker init failed: " ++ m, rfl⟩, rfl⟩
    | noSignal =>
      exact ⟨⟨"Docling worker did not start within " ++ toString startupTimeout ++ "s", rfl⟩, rfl⟩
  · intro e docs
    rfl

/-- Witness for C9 at a concrete input: a startup timeout with no signal
after 120 seconds aborts with the worker terminated and joined, and a
failed startup dispatches no task. -/
theorem C9_pool_startup_abort_witness :
    ((∃ m, (startDoclingWorker 120 .noSignal).1 = .error m) ∧
      (startDoclingWorker 120 .noSignal).2 = [.terminateWorker, .joinWorker]) ∧
    mainAfterStartup (.error "Docling worker did not start within 120s") [(0, "a.pdf")] = (1, []) :=
  ⟨C9_pool_startup_abort.1 120 .noSignal (by decide),
   C9_pool_startup_abort.2 "Docling worker did not start within 120s" [(0, "a.pdf")]⟩

/-! ## Helper lemmas for the ledger claims -/

/-- With an empty done-set the batch fold appends one entry per sample. -/
lemma processBatch_fold_fresh (mkEntry : String → String → LedgerEntry) :
    ∀ (samples : List (String × String)) (acc : List LedgerEntry),
      samples.foldl
        (fun a s => if s.1 ∈ ([] : List String) then a else a ++ [mkEntry s.1 s.2]) acc
        = acc ++ samples.map (fun s => mkEntry s.1 s.2) := by
  intro samples
  induction samples with
  | nil => intro acc; simp
  | cons s rest ih =>
    intro acc
    rw [List.foldl_cons, if_neg (by simp), ih]
    simp

/-- A fresh run (empty loaded ledger) produces exactly the mapped entries. -/
lemma processBatch_fresh (mkEntry : String → String → LedgerEntry)
    (samples : List (String × String)) :
    processBatch mkEntry [] samples = samples.map (fun s => mkEntry s.1 s.2) := by
  unfold processBatch doneKeySet
  simpa using processBatch_fold_fresh mkEntry samples []

/-- When every sample key is already in the done-set the fold changes
nothing. -/
lemma processBatch_skip_all (mkEntry : String → String → LedgerEntry)
    (results0 : List LedgerEntry) :
    ∀ (samples : List (String × String)),
      (∀ s ∈ samples, s.1 ∈ doneKeySet results0) →
      processBatch mkEntry results0 samples = results0 := by
  unfold processBatch
  intro samples
  induction samples with
  | nil => intro _; rfl
  | cons s rest ih =>
    intro h
    simp only [List.foldl, if_pos (h s (List.mem_cons_self s rest))]
    exact ih (fun t ht => h t (List.mem_cons_of_mem s ht))

/-- Entry lists whose keys avoid `k` filter to nothing under the key
predicate. -/
lemma filter_key_nil (k : String) :
    ∀ (l : List LedgerEntry), (∀ e ∈ l, e.itemKey ≠ k) →
      l.filter (fun e => decide (e.itemKey = k)) = [] := by
  intro l
  induction l with
  | nil => intro _; rfl
  | cons e rest ih =>
    intro h
    rw [List.filter_cons_of_neg]
    · exact ih (fun t ht => h t (List.mem_cons_of_mem e ht))
    · simpa using h e (List.mem_cons_self e rest)

/-- With duplicate-free sample keys, the fresh run holds exactly one entry
for each sample key. -/
lemma processBatch_key_count (mkEntry : String → String → LedgerEntry)
    (hk : ∀ k p, (mkEntry k p).itemKey = k) :
    ∀ (samples : List (String × String)), (samples.map Prod.fst).Nodup →
      ∀ k ∈ samples.map Prod.fst,
        ((samples.map (fun s => mkEntry s.1 s.2)).filter
          (fun e => decide (e.itemKey = k))).length = 1 := by
  intro samples
  induction samples with
  | nil => intro _ k hkm; simp at hkm
  | cons s rest ih =>
    intro hnd k hkm
    have hnd1 : s.1 ∉ rest.map Prod.fst := (List.nodup_cons.mp hnd).1
    have hnd2 : (rest.map Prod.fst).Nodup := (List.nodup_cons.mp hnd).2
    by_cases hk0 : s.1 = k
    · subst hk0
      rw [List.map_cons, List.filter_cons_of_pos (by simp [hk])]
      have hrest : (rest.map (fun s => mkEntry s.1 s.2)).filter
          (fun e => decide (e.itemKey = s.1)) = [] := by
        apply filter_key_nil
        intro e he
        rcases List.mem_map.mp he with ⟨t, ht, rfl⟩
        rw [hk]
        intro hcontra
        exact hnd1 (hcontra ▸ List.mem_map_of_mem Prod.fst ht)
      rw [hrest]
      rfl
    · have hkm2 : k ∈ rest.map Prod.fst := by
        rcases List.mem_cons.mp hkm with h | h
        · exact absurd h.symm hk0
        · exact h
      rw [List.map_cons, List.filter_cons_of_neg (by simp [hk, hk0])]
      exact ih hnd2 k hkm2

/-- C5: at-most-once ledgering.  For a duplicate-free document set and a
per-document processing step that records the document key in its entry,
a fresh run followed by a second run over the unchanged ledger yields
exactly one ledger entry per document key, and the second run is a no-op:
every key is found in the loaded done-set and skipped, so the ledger is
returned unchanged. -/
theorem C5_at_most_once_ledgering :
    ∀ (mkEntry : String → String → LedgerEntry),
      (∀ k p, (mkEntry k p).itemKey = k) →
      ∀ (samples : List (String × String)), (samples.map Prod.fst).Nodup →
        (∀ k ∈ samples.map Prod.fst,
          ((processBatch mkEntry [] samples).filter
            (fun e => decide (e.itemKey = k))).length = 1) ∧
        processBatch mkEntry (processBatch mkEntry [] samples) samples
          = processBatch mkEntry [] samples := by
  intro mkEntry hk samples hnd
  constructor
  · intro k hkm
    rw [processBatch_fresh]
    exact processBatch_key_count mkEntry hk samples hnd k hkm
  · apply processBatch_skip_all
    intro s hs
    rw [processBatch_fresh]
    unfold doneKeySet
    rw [List.map_map]
    have : (fun e => LedgerEntry.itemKey e) ∘ (fun s => mkEntry s.1 s.2)
        = fun (s : String × String) => s.1 := by
      funext t
      exact hk t.1 t.2
    rw [this]
    exact List.mem_map_of_mem _ hs

/-- Witness for C5 at a concrete input: two documents with distinct keys
produce one entry per key and an idempotent second run. -/
theorem C5_at_most_once_ledgering_witness :
    (∀ k ∈ ([("K1", "a.pdf"), ("K2", "b.pdf")] : List (String × String)).map Prod.fst,
      ((processBatch cMkEntry [] [("K1", "a.pdf"), ("K2", "b.pdf")]).filter
        (fun e => decide (e.itemKey = k))).length = 1) ∧
    processBatch cMkEntry (processBatch cMkEntry [] [("K1", "a.pdf"), ("K2", "b.pdf")])
        [("K1", "a.pdf"), ("K2", "b.pdf")]
      = processBatch cMkEntry [] [("K1", "a.pdf"), ("K2", "b.pdf")] :=
  C5_at_most_once_ledgering cMkEntry (fun _ _ => rfl)
    [("K1", "a.pdf"), ("K2", "b.pdf")] (by decide)

/-! ## Helper lemmas for the atomic rewrite claim -/

/-- Temporary-file writes never change the output file. -/
lemma applyFsOps_writes_output :
    ∀ (ws : List FsOp) (d : DiskState),
      (∀ op ∈ ws, ∃ c, op = FsOp.writeTmpChunk c) →
      (applyFsOps d ws).outputFile = d.outputFile := by
  intro ws
  induction ws with
  | nil => intro d _; rfl
  | cons op rest ih =>
    intro d h
    rcases h op (List.mem_cons_self op rest) with ⟨c, rfl⟩
    unfold applyFsOps at ih ⊢
    rw [List.foldl_cons]
    exact ih _ (fun t ht => h t (List.mem_cons_of_mem _ ht))

/-- The write phase of `save_results` for a ledger `R`: every operation is
a temporary-file write. -/
lemma saveResults_writes_are_writes (R : List LedgerEntry) :
    ∀ op ∈ (List.range (R.length + 1)).map (fun n => FsOp.writeTmpChunk (R.take n)),
      ∃ c, op = FsOp.writeTmpChunk c := by
  intro op hop
  rcases List.mem_map.mp hop with ⟨n, _, rfl⟩
  exact ⟨R.take n, rfl⟩

/-- After the full write phase the temporary file holds the complete
serialised ledger. -/
lemma applyFsOps_writes_tmp (R : List LedgerEntry) (d : DiskState) :
    (applyFsOps d ((List.range (R.length + 1)).map
      (fun n => FsOp.writeTmpChunk (R.take n)))).tmpFile = some R := by
  rw [List.range_succ, List.map_append]
  unfold applyFsOps
  rw [List.foldl_append]
  simp [applyFsOp, List.take_length]

/-- C6: atomic ledger rewrite.  After a document finishes (success,
timeout, and error outcomes all flow through the same append), exactly one
entry extends the in-memory ledger, and for every prefix of the
`save_results` operation sequence — i.e. at every possible crash point —
the on-disk output file is either the previous complete ledger or the new
complete ledger, never a partial serialisation; the completed sequence
leaves the new ledger on disk. -/
theorem C6_atomic_ledger_rewrite :
    ∀ (results : List LedgerEntry) (entry : LedgerEntry) (d0 : DiskState)
      (old : List LedgerEntry), d0.outputFile = some old →
      (ledgerAfterDocument results entry).length = results.length + 1 ∧
      (∀ n : Nat,
        (applyFsOps d0 ((saveResultsOps (ledgerAfterDocument results entry)).take n)).outputFile
            = some old ∨
        (applyFsOps d0 ((saveResultsOps (ledgerAfterDocument results entry)).take n)).outputFile
            = some (ledgerAfterDocument results entry)) ∧
      (applyFsOps d0 (saveResultsOps (ledgerAfterDocument results entry))).outputFile
          = some (ledgerAfterDocument results entry) := by
  intro results entry d0 old hold
  set R := ledgerAfterDocument results entry with hR
  set ws := (List.range (R.length + 1)).map (fun n => FsOp.writeTmpChunk (R.take n)) with hws
  have hfull : (applyFsOps d0 (saveResultsOps R)).outputFile = some R := by
    unfold saveResultsOps
    rw [← hws]
    unfold applyFsOps
    rw [List.foldl_append]
    show (applyFsOp (applyFsOps d0 ws) FsOp.renameTmpOverOutput).outputFile = some R
    show (applyFsOps d0 ws).tmpFile = some R
    exact applyFsOps_writes_tmp R d0
  have hlen1 : R.length = results.length + 1 := by
    rw [hR]
    simp [ledgerAfterDocument]
  refine ⟨hlen1, ?_, hfull⟩
  intro n
  by_cases hn : n ≤ ws.length
  · left
    have htake : (saveResultsOps R).take n = ws.take n := by
      unfold saveResultsOps
      rw [← hws]
      exact List.take_append_of_le_length hn
    rw [htake]
    rw [applyFsOps_writes_output (ws.take n) d0
      (fun op hop => saveResults_writes_are_writes R op (List.mem_of_mem_take hop))]
    exact hold
  · right
    have hlen : (saveResultsOps R).length ≤ n := by
      unfold saveResultsOps
      rw [← hws]
      simp only [List.length_append, List.length_cons, List.length_nil]
      omega
    rw [List.take_of_length_le hlen]
    exact hfull

/-- Witness for C6 at a concrete input: saving the one-entry ledger over
an empty previous ledger. -/
theorem C6_atomic_ledger_rewrite_witness :
    (ledgerAfterDocument [] cLedgerEntry).length = 0 + 1 ∧
    (∀ n : Nat,
      (applyFsOps ⟨none, some []⟩
        ((saveResultsOps (ledgerAfterDocument [] cLedgerEntry)).take n)).outputFile
          = some [] ∨
      (applyFsOps ⟨none, some []⟩
        ((saveResultsOps (ledgerAfterDocument [] cLedgerEntry)).take n)).outputFile
          = some (ledgerAfterDocument [] cLedgerEntry)) ∧
    (applyFsOps ⟨none, some []⟩ (saveResultsOps (ledgerAfterDocument [] cLedgerEntry))).outputFile
        = some (ledgerAfterDocument [] cLedgerEntry) := by
  have h := C6_atomic_ledger_rewrite [] cLedgerEntry ⟨none, some []⟩ [] rfl
  simpa using h

/-! ## Helper lemmas for the quality floor claim -/

/-- Corruption scores are nonnegative in both branches of
`detect_corruption`. -/
lemma detectCorruption_nonneg (t : String) : 0 ≤ (detectCorruption t).corruptionScore := by
  unfold detectCorruption
  by_cases h : t = "" ∨ (pyStripChars t.toList).length < 10
  · rw [if_pos h]
    exact zero_le_one
  · rw [if_neg h]
    simp only
    refine le_min (by positivity) (by norm_num)

/-- Folding `min` over nonnegative values from a nonnegative start stays
nonnegative. -/
lemma foldl_min_nonneg :
    ∀ (xs : List ℚ) (acc : ℚ), 0 ≤ acc → (∀ x ∈ xs, 0 ≤ x) → 0 ≤ xs.foldl min acc := by
  intro xs
  induction xs with
  | nil => intro acc hacc _; exact hacc
  | cons x rest ih =>
    intro acc hacc hall
    rw [List.foldl_cons]
    exact ih (min acc x)
      (le_min hacc (hall x (List.mem_cons_self x rest)))
      (fun y hy => hall y (List.mem_cons_of_mem x hy))

/-- `listMinD` of nonnegative values with a nonnegative default is
nonnegative. -/
lemma listMinD_nonneg (dflt : ℚ) (l : List ℚ) (hd : 0 ≤ dflt)
    (hl : ∀ x ∈ l, 0 ≤ x) : 0 ≤ listMinD dflt l := by
  cases l with
  | nil => exact hd
  | cons x xs =>
    exact foldl_min_nonneg xs x (hl x (List.mem_cons_self x xs))
      (fun y hy => hl y (List.mem_cons_of_mem x hy))

/-- The best-case corruption value of `compute_quality_metrics` is
nonnegative. -/
lemma minCorruption_nonneg (w : List (String × ExtractionResult)) :
    0 ≤ listMinD 1 ((w.filterMap (fun x =>
      match x.2.text with
      | some t => if t ≠ "" then some (x.1, detectCorruption t) else none
      | none => none)).map (fun p => p.2.corruptionScore)) := by
  refine listMinD_nonneg 1 _ (by norm_num) ?_
  intro x hx
  rcases List.mem_map.mp hx with ⟨p, hp, rfl⟩
  rcases List.mem_filterMap.mp hp with ⟨y, _, hy⟩
  split at hy
  · split at hy
    · cases hy
      exact detectCorruption_nonneg _
    · simp at hy
  · simp at hy

/-- C10: implicit quality floor.  Whenever fewer than two witnesses carry
non-empty text with no error, `compute_quality_metrics` reports agreement
0.0 with empty similarity pairs, its overall score is exactly 0.3 times
the cleanliness score and hence at most 0.3, and the recommendation is
always review. -/
theorem C10_quality_floor :
    ∀ (witnesses : List (String × ExtractionResult)),
      (usableTexts witnesses).length < 2 →
      (computeQualityMetrics witnesses).agreementScore = 0 ∧
      (computeQualityMetrics witnesses).similarity.pairs = [] ∧
      (computeQualityMetrics witnesses).score
        = 3/10 * (computeQualityMetrics witnesses).cleanlinessScore ∧
      (computeQualityMetrics witnesses).score ≤ 3/10 ∧
      (computeQualityMetrics witnesses).recommendation = "review" := by
  intro w h
  have hsim : pairwiseSimilarities w
      = { pairs := [], average := 0, maxScore := 0, minScore := 0,
          witnessCount := (usableTexts w).length } := by
    unfold pairwiseSimilarities
    rw [if_pos h]
  have hmc := minCorruption_nonneg w
  simp only [computeQualityMetrics, hsim]
  refine ⟨by trivial, by trivial, by ring, by linarith, ?_⟩
  rw [if_neg (by linarith), if_neg (by linarith), if_neg (by linarith)]

/-- Witness for C10 at a concrete input: a single-witness set (one usable
text) is always recommended for review. -/
theorem C10_quality_floor_witness :
    (computeQualityMetrics [("docling", cSampleResult)]).agreementScore = 0 ∧
    (computeQualityMetrics [("docling", cSampleResult)]).similarity.pairs = [] ∧
    (computeQualityMetrics [("docling", cSampleResult)]).score
      = 3/10 * (computeQualityMetrics [("docling", cSampleResult)]).cleanlinessScore ∧
    (computeQualityMetrics [("docling", cSampleResult)]).score ≤ 3/10 ∧
    (computeQualityMetrics [("docling", cSampleResult)]).recommendation = "review" :=
  C10_quality_floor [("docling", cSampleResult)] (by decide)

/-- C1 counterexample: when both engines time out, the witness set holds
two timeout-flagged entries, yet the gate block of `main` is skipped
(the Vision result carries an error), `needs_tesseract` keeps its initial
value `not vision_available = False`, and the fallback is NOT required —
contradicting the claim that this case fails open. -/
theorem C1_fail_open_counterexample :
    (timeoutError "docling" 300).error = some (timeoutMsg 300) ∧
    (timeoutError "vision" 300).error = some (timeoutMsg 300) ∧
    needsTesseract true (some (timeoutError "vision" 300)) (timeoutError "docling" 300)
      VISION_THRESHOLD = false := by
  refine ⟨rfl, rfl, ?_⟩
  rfl

/-- C1 amended: (1) when no secondary engine is available the fallback is
required, whatever results arrive; (2) when the gate actually runs (the
secondary result is present without error and the primary text is
non-empty) and no page pair is scored, the gate score is 0.0 and any
positive threshold forces the fallback; (3) but when the secondary result
carries an error — in particular when both engines time out — the gate
block is skipped and the fallback is NOT required. -/
theorem C1_fail_open_amended :
    (∀ (visionResult : Option ExtractionResult) (doclingResult : ExtractionResult)
        (threshold : ℚ),
        needsTesseract false visionResult doclingResult threshold = true) ∧
    (∀ (vr doclingResult : ExtractionResult) (threshold : ℚ),
        vr.error = none → doclingResult.text.getD "" ≠ "" →
        gateScores doclingResult vr = [] → 0 < threshold →
        needsTesseract true (some vr) doclingResult threshold = true) ∧
    (∀ (vr doclingResult : ExtractionResult) (threshold : ℚ),
        vr.error ≠ none →
        needsTesseract true (some vr) doclingResult threshold = false) := by
  refine ⟨?_, ?_, ?_⟩
  · intro visionResult doclingResult threshold
    cases visionResult with
    | none => rfl
    | some v =>
      simp only [needsTesseract]
      by_cases h : v.error = none ∧ doclingResult.text.getD "" ≠ ""
      · rw [if_pos h]
        by_cases hs : visionGateScore doclingResult v ≥ threshold
        · simp [if_pos hs]
        · simp [if_neg hs]
      · simp [if_neg h]
  · intro vr doclingResult threshold h1 h2 h3 h4
    have hscore : visionGateScore doclingResult vr = 0 := by
      unfold visionGateScore
      rw [h3]
      rfl
    have hlt : ¬ (0 : ℚ) ≥ threshold := fun hc => absurd (lt_of_lt_of_le h4 hc) (lt_irrefl 0)
    simp only [needsTesseract]
    rw [if_pos ⟨h1, h2⟩, hscore, if_neg hlt]
  · intro vr doclingResult threshold h
    simp only [needsTesseract]
    rw [if_neg (fun hc => h hc.1)]
    rfl

/-- Witness for the amended C1 at concrete inputs: no secondary engine;
a gate run with an empty sampled-page map at threshold 1; a secondary
timeout. -/
theorem C1_fail_open_amended_witness :
    needsTesseract false none (timeoutError "docling" 300) 1 = true ∧
    needsTesseract true (some cVisionEmptyOk) cSampleResult 1 = true ∧
    needsTesseract true (some (timeoutError "vision" 300)) cSampleResult 1 = false :=
  ⟨C1_fail_open_amended.1 none (timeoutError "docling" 300) 1,
   C1_fail_open_amended.2.1 cVisionEmptyOk cSampleResult 1 rfl (by decide) rfl zero_lt_one,
   C1_fail_open_amended.2.2 (timeoutError "vision" 300) cSampleResult 1 (by decide)⟩

/-- C3 counterexample: with the page maps exactly as the claim states them
— primary 1-based pages 1 and 2, secondary map keyed 1 — the gate compares
the secondary entry against primary page 1 + 1 = 2, the similarity of
`A B C` against `D E F` is 0.4, not 1.0, and at threshold 0.5 the fallback
runs instead of being skipped. -/
theorem C3_gate_boundary_counterexample :
    visionGateScore cDocling cVision1 = 2/5 ∧
    needsTesseract true (some cVision1) cDocling (1/2) = true := by
  have hs : visionGateScore cDocling cVision1 = 2/5 := by
    have h1 : normalizeArabicText (stripMarkdown "A B C") = "A B C" := by decide
    have h2 : normalizeArabicText (stripMarkdown "D E F") = "D E F" := by decide
    have h3 : lcsLen ['A', ' ', 'B', ' ', 'C'] ['D', ' ', 'E', ' ', 'F'] = 2 := by decide
    have hc : (decide ("A B C" = "") || decide ("D E F" = "")) = false := by decide
    have hg : gateScores cDocling cVision1 = [computeSimilarity "A B C" "D E F"] := rfl
    simp only [visionGateScore, hg]
    rw [if_neg (by simp)]
    simp only [computeSimilarity, h1, h2, hc, Bool.false_eq_true, if_false]
    norm_num [indelSimilarity, h3]
  refine ⟨hs, ?_⟩
  simp only [needsTesseract]
  rw [if_pos (by exact ⟨rfl, by decide⟩)]
  rw [if_neg (by rw [hs]; norm_num)]

/-- C3 amended: the secondary page map is 0-based while the primary map is
1-based, so the page-1 text of the claim lives under key 0; with secondary
page map 0 mapped to `A B C` the gate compares it against primary page 1,
the agreement is 1.0, and at threshold 0.5 the fallback is skipped.  (With
key 1 as literally stated, the entry aligns with primary page 2 and the
score is 0.4, so the fallback runs — the counterexample.) -/
theorem C3_gate_boundary_amended :
    visionGateScore cDocling cVision0 = 1 ∧
    needsTesseract true (some cVision0) cDocling (1/2) = false := by
  have hs : visionGateScore cDocling cVision0 = 1 := by
    have h1 : normalizeArabicText (stripMarkdown "A B C") = "A B C" := by decide
    have h3 : lcsLen ['A', ' ', 'B', ' ', 'C'] ['A', ' ', 'B', ' ', 'C'] = 5 := by decide
    have hc : (decide ("A B C" = "") || decide ("A B C" = "")) = false := by decide
    have hg : gateScores cDocling cVision0 = [computeSimilarity "A B C" "A B C"] := rfl
    simp only [visionGateScore, hg]
    rw [if_neg (by simp)]
    simp only [computeSimilarity, h1, hc, Bool.false_eq_true, if_false]
    norm_num [indelSimilarity, h3]
  refine ⟨hs, ?_⟩
  simp only [needsTesseract]
  rw [if_pos (by exact ⟨rfl, by decide⟩)]
  rw [if_pos (by rw [hs]; norm_num)]
  rfl

/-! ## Helper lemma for the worker protocol claim -/

/-- Every message of the worker task loop is tagged `ok` or `err`. -/
lemma doclingWorkerLoop_tags (extract : String → Except String ExtractionResult) :
    ∀ (tasks : List (Option (Nat × String))) (m : WireMsg),
      m ∈ doclingWorkerLoop extract tasks → m.tag = "ok" ∨ m.tag = "err" := by
  intro tasks
  induction tasks with
  | nil => intro m hm; simp [doclingWorkerLoop] at hm
  | cons t rest ih =>
    intro m hm
    cases t with
    | none => simp [doclingWorkerLoop] at hm
    | some task =>
      rw [doclingWorkerLoop] at hm
      rcases List.mem_cons.mp hm with h | h
      · subst h
        unfold taskMsg
        cases extract task.2 with
        | ok r => exact Or.inl rfl
        | error e => exact Or.inr rfl
      · exact ih m h

/-- C4 counterexample: the worker protocol has no `started` message.  For
a concrete run that serves one task, the emitted tag sequence is exactly
`ready` then `ok` — no `started` notification precedes the extraction,
contradicting the claim. -/
theorem C4_started_notification_counterexample :
    (doclingWorkerRun (.ok ()) cExtractOk [some (0, "a.pdf"), none]).map
        (fun m => m.tag) = ["ready", "ok"] ∧
    "started" ∉ (doclingWorkerRun (.ok ()) cExtractOk [some (0, "a.pdf"), none]).map
        (fun m => m.tag) := by
  refine ⟨rfl, ?_⟩
  decide

/-- C4 amended: the worker emits only `ready`, `init_err`, `ok` and `err`
messages — there is no `started` notification — and each served task
yields exactly one `ok` or `err` message tagged with the task's monotonic
id; the dispatcher starts the per-document clock at submission time, so
the deadline is dispatch time plus timeout and queued wait time counts
against the per-document timeout. -/
theorem C4_started_notification_amended :
    (∀ (init : Except String Unit) (extract : String → Except String ExtractionResult)
        (tasks : List (Option (Nat × String))) (m : WireMsg),
        m ∈ doclingWorkerRun init extract tasks →
        m.tag = "ready" ∨ m.tag = "init_err" ∨ m.tag = "ok" ∨ m.tag = "err") ∧
    (∀ (extract : String → Except String ExtractionResult) (id : Nat) (p : String),
        (taskMsg extract (id, p)).docId = some id ∧
        ((taskMsg extract (id, p)).tag = "ok" ∨ (taskMsg extract (id, p)).tag = "err")) ∧
    (∀ (dispatchTime timeout : Nat),
        phase1Deadline dispatchTime timeout = dispatchTime + timeout) := by
  refine ⟨?_, ?_, fun _ _ => rfl⟩
  · intro init extract tasks m hm
    cases init with
    | error e =>
      simp only [doclingWorkerRun] at hm
      rcases List.mem_singleton.mp hm with rfl
      exact Or.inr (Or.inl rfl)
    | ok u =>
      simp only [doclingWorkerRun] at hm
      rcases List.mem_cons.mp hm with h | h
      · subst h
        exact Or.inl rfl
      · rcases doclingWorkerLoop_tags extract tasks m h with h2 | h2
        · exact Or.inr (Or.inr (Or.inl h2))
        · exact Or.inr (Or.inr (Or.inr h2))
  · intro extract id p
    unfold taskMsg
    cases extract p with
    | ok r => exact ⟨rfl, Or.inl rfl⟩
    | error e => exact ⟨rfl, Or.inr rfl⟩

/-- Witness for the amended C4 at concrete inputs. -/
theorem C4_started_notification_witness :
    (({ tag := "ready", docId := none, payload := WirePayload.nothing } : WireMsg).tag = "ready" ∨
      ({ tag := "ready", docId := none, payload := WirePayload.nothing } : WireMsg).tag = "init_err" ∨
      ({ tag := "ready", docId := none, payload := WirePayload.nothing } : WireMsg).tag = "ok" ∨
      ({ tag := "ready", docId := none, payload := WirePayload.nothing } : WireMsg).tag = "err") ∧
    ((taskMsg cExtractOk (7, "x.pdf")).docId = some 7 ∧
      ((taskMsg cExtractOk (7, "x.pdf")).tag = "ok" ∨ (taskMsg cExtractOk (7, "x.pdf")).tag = "err")) ∧
    phase1Deadline 5 300 = 5 + 300 :=
  ⟨C4_started_notification_amended.1 (.ok ()) cExtractOk [none]
      { tag := "ready", docId := none, payload := WirePayload.nothing } (by decide),
   C4_started_notification_amended.2.1 cExtractOk 7 "x.pdf",
   C4_started_notification_amended.2.2 5 300⟩

/-! ## Helper lemmas for the fallback memory claim -/

/-- The data of a timeout message starts with the letter t. -/
lemma timeoutMsg_data (n : Nat) :
    (timeoutMsg n).data
      = 't' :: (['i', 'm', 'e', 'o', 'u', 't', ' ', 'a', 'f', 't', 'e', 'r', ' ']
          ++ (toString n).data ++ ['s']) := by
  unfold timeoutMsg
  simp [String.data_append]

/-- The memory-abort text differs from every timeout text. -/
lemma memAbortMsg_ne_timeoutMsg (n : Nat) : memAbortMsg ≠ timeoutMsg n := by
  intro h
  have hd := congrArg String.data h
  rw [timeoutMsg_data n] at hd
  rw [show memAbortMsg.data = 'm' :: "emory limit 4.0GB exceeded".data from rfl] at hd
  simp at hd

/-- C7 counterexample: `_mem_gb` reads the resident memory of the CURRENT
(supervising) process, not of the fallback child.  In a run where the
fallback child's resident memory exceeds the ceiling at a sampled tick
while the supervisor's own stays low, the loop performs no kill at all and
returns the child's successful result — contradicting the claim that
exceeding the fallback process's ceiling force-kills it. -/
theorem C7_memory_ceiling_counterexample :
    MEM_ABORT_GB <
      ({ alive := true, supervisorRssGb := some 1, fallbackRssGb := 100 } : MemTick).fallbackRssGb ∧
    runTesseractInProcess 300 (some (.ok cTessOk)) false 0
      [{ alive := true, supervisorRssGb := some 1, fallbackRssGb := 100 },
       { alive := false, supervisorRssGb := some 1, fallbackRssGb := 100 }]
      = (cTessOk, [.joinProc]) ∧
    ProcAction.terminateProc ∉
      (runTesseractInProcess 300 (some (.ok cTessOk)) false 0
        [{ alive := true, supervisorRssGb := some 1, fallbackRssGb := 100 },
         { alive := false, supervisorRssGb := some 1, fallbackRssGb := 100 }]).2 := by
  refine ⟨by decide, rfl, ?_⟩
  decide

/-- C7 amended: the supervisor samples its OWN resident memory once per
one-second tick; at any iteration where the child is alive, the timeout
has not yet fired, and the sampled supervisor value is non-`None`,
non-zero and above the global 4.0 GB ceiling, it force-kills the child
(terminate, bounded join, then kill only if still alive) and returns a
result identical to the timeout result in every field, distinguished only
by the error text. -/
theorem C7_memory_ceiling_amended :
    ∀ (timeout : Nat) (queueAtExit : Option (Except String ExtractionResult))
      (survivedTerminate : Bool) (elapsed : Nat) (t : MemTick) (rest : List MemTick) (m : ℚ),
      t.alive = true → elapsed < timeout → t.supervisorRssGb = some m →
      m ≠ 0 → MEM_ABORT_GB < m →
      runTesseractInProcess timeout queueAtExit survivedTerminate elapsed (t :: rest)
        = (excError "tesseract" memAbortMsg, killEscalation survivedTerminate) ∧
      ProcAction.terminateProc ∈ killEscalation survivedTerminate ∧
      ({ excError "tesseract" memAbortMsg with
          error := (timeoutError "tesseract" timeout).error }
        = timeoutError "tesseract" timeout) ∧
      (excError "tesseract" memAbortMsg).error ≠ (timeoutError "tesseract" timeout).error := by
  intro timeout queueAtExit survivedTerminate elapsed t rest m halive hel hsup hne hceil
  refine ⟨?_, ?_, rfl, ?_⟩
  · rw [runTesseractInProcess]
    rw [if_neg (by rw [halive]; exact fun hc => Bool.noConfusion hc)]
    rw [if_neg (by omega)]
    rw [hsup]
    exact if_pos ⟨hne, hceil⟩
  · unfold killEscalation
    exact List.mem_cons_self _ _
  · simp only [excError, timeoutError]
    intro h
    exact memAbortMsg_ne_timeoutMsg timeout (Option.some.injEq _ _ ▸ h)

/-- Witness for the amended C7 at a concrete input: supervisor sample
5 GB at the first tick, timeout 300, child survives the graceful
terminate. -/
theorem C7_memory_ceiling_amended_witness :
    runTesseractInProcess 300 none true 0
        [{ alive := true, supervisorRssGb := some 5, fallbackRssGb := 5 }]
      = (excError "tesseract" memAbortMsg, killEscalation true) ∧
    ProcAction.terminateProc ∈ killEscalation true ∧
    ({ excError "tesseract" memAbortMsg with
        error := (timeoutError "tesseract" 300).error }
      = timeoutError "tesseract" 300) ∧
    (excError "tesseract" memAbortMsg).error ≠ (timeoutError "tesseract" 300).error :=
  C7_memory_ceiling_amended 300 none true 0
    { alive := true, supervisorRssGb := some 5, fallbackRssGb := 5 } [] 5
    rfl (by decide) rfl (by decide) (by decide)

/-! ## Helper lemmas for the spread sampling claim -/

/-- Filtering the explicit worker index list `range k` to the valid page
range keeps exactly the first `min k total` pages. -/
lemma filter_range_valid (total : Nat) :
    ∀ k : Nat, ((List.range k).map Int.ofNat).filter (fun i => decide (0 ≤ i ∧ i < (total : ℤ)))
      = (List.range (min k total)).map Int.ofNat := by
  intro k
  induction k with
  | zero => simp
  | succ k ih =>
    rw [List.range_succ, List.map_append, List.filter_append, ih]
    by_cases h : k < total
    · have hsing : (([Int.ofNat k] : List ℤ).filter
          (fun i => decide (0 ≤ i ∧ i < (total : ℤ)))) = [Int.ofNat k] := by
        rw [List.filter_eq_self]
        intro a ha
        rw [List.mem_singleton.mp ha]
        simp
        omega
      rw [List.map_cons, List.map_nil, hsing]
      rw [show min (k + 1) total = k + 1 from by omega, show min k total = k from by omega,
        List.range_succ, List.map_append]
      simp
    · have hsing : (([Int.ofNat k] : List ℤ).filter
          (fun i => decide (0 ≤ i ∧ i < (total : ℤ)))) = [] := by
        rw [List.filter_eq_nil_iff]
        intro a ha
        rw [List.mem_singleton.mp ha]
        simp
        omega
      rw [List.map_cons, List.map_nil, hsing, List.append_nil,
        show min (k + 1) total = min k total from by omega]

/-- Membership in an ordered duplicate-free insertion. -/
lemma mem_insertSortedDedup (x a : ℤ) :
    ∀ l : List ℤ, (a ∈ insertSortedDedup x l ↔ a = x ∨ a ∈ l) := by
  intro l
  induction l with
  | nil => simp [insertSortedDedup]
  | cons y ys ih =>
    unfold insertSortedDedup
    by_cases h1 : x < y
    · rw [if_pos h1]
      simp [List.mem_cons]
    · rw [if_neg h1]
      by_cases h2 : x = y
      · rw [if_pos h2]
        subst h2
        simp only [List.mem_cons]
        tauto
      · rw [if_neg h2]
        simp only [List.mem_cons, ih]
        tauto

/-- Membership in `sorted(set(xs))` is membership in `xs`. -/
lemma mem_sortDedup (a : ℤ) : ∀ l : List ℤ, (a ∈ sortDedup l ↔ a ∈ l) := by
  intro l
  induction l with
  | nil => simp [sortDedup]
  | cons x xs ih =>
    rw [show sortDedup (x :: xs) = insertSortedDedup x (sortDedup xs) from rfl,
      mem_insertSortedDedup, ih]
    simp [List.mem_cons]

/-- Python `round` is the identity on integers. -/
lemma roundHalfEven_intCast (z : ℤ) : roundHalfEven (z : ℚ) = z := by
  simp only [roundHalfEven, Int.floor_intCast, sub_self]
  rw [if_pos (by norm_num)]

/-- The spread sampler always contains the first and the last page index
whenever the document is non-empty and at least two pages are requested. -/
lemma spread_includes_ends (total n : Nat) (h1 : 1 ≤ total) (h2 : 2 ≤ n) :
    (0 : ℤ) ∈ spreadIndices total n ∧ ((total : ℤ) - 1) ∈ spreadIndices total n := by
  unfold spreadIndices
  have hm0 : (0 : ℕ) ∈ List.range n := List.mem_range.mpr (by omega)
  have hmn : n - 1 ∈ List.range n := List.mem_range.mpr (by omega)
  by_cases hc : total ≤ n
  · rw [if_pos hc]
    constructor
    · exact List.mem_map.mpr ⟨0, List.mem_range.mpr (by omega), rfl⟩
    · refine List.mem_map.mpr ⟨total - 1, List.mem_range.mpr (by omega), ?_⟩
      show ((total - 1 : ℕ) : ℤ) = (total : ℤ) - 1
      omega
  · rw [if_neg hc]
    have hn : ((n : ℚ) - 1) ≠ 0 := by
      have h2q : (2 : ℚ) ≤ (n : ℚ) := by exact_mod_cast h2
      intro hz
      rw [sub_eq_zero] at hz
      rw [hz] at h2q
      norm_num at h2q
    constructor
    · rw [mem_sortDedup]
      have hmem := List.mem_map_of_mem
        (fun i : ℕ => roundHalfEven ((i : ℚ) * (((total : ℚ) - 1) / ((n : ℚ) - 1)))) hm0
      have h0 : roundHalfEven (((0 : ℕ) : ℚ) * (((total : ℚ) - 1) / ((n : ℚ) - 1)))
          = (0 : ℤ) := by
        have h00 := roundHalfEven_intCast 0
        norm_num at h00 ⊢
        exact h00
      have hmem2 : roundHalfEven (((0 : ℕ) : ℚ) * (((total : ℚ) - 1) / ((n : ℚ) - 1)))
          ∈ List.map (fun i : ℕ => roundHalfEven ((i : ℚ) * (((total : ℚ) - 1) / ((n : ℚ) - 1))))
            (List.range n) := hmem
      rw [h0] at hmem2
      exact hmem2
    · rw [mem_sortDedup]
      have hmem := List.mem_map_of_mem
        (fun i : ℕ => roundHalfEven ((i : ℚ) * (((total : ℚ) - 1) / ((n : ℚ) - 1)))) hmn
      have hval : roundHalfEven (((n - 1 : ℕ) : ℚ) * (((total : ℚ) - 1) / ((n : ℚ) - 1)))
          = (total : ℤ) - 1 := by
        have hcast : ((n - 1 : ℕ) : ℚ) = (n : ℚ) - 1 := by
          rw [Nat.cast_sub (by omega), Nat.cast_one]
        rw [hcast, mul_comm, div_mul_cancel₀ _ hn]
        have hre := roundHalfEven_intCast ((total : ℤ) - 1)
        have hc2 : (((total : ℤ) - 1 : ℤ) : ℚ) = (total : ℚ) - 1 := by
          push_cast
          ring
        rw [hc2] at hre
        exact hre
      have hmem2 : roundHalfEven (((n - 1 : ℕ) : ℚ) * (((total : ℚ) - 1) / ((n : ℚ) - 1)))
          ∈ List.map (fun i : ℕ => roundHalfEven ((i : ℚ) * (((total : ℚ) - 1) / ((n : ℚ) - 1))))
            (List.range n) := hmem
      rw [hval] at hmem2
      exact hmem2

/-- C8 counterexample: for a 40-page document with the default three
sampled pages, the orchestration samples pages 0, 1 and 2 — the FIRST
three pages — so the last page 39 is not sampled, contradicting the claim
that the sample is spread across the document and always includes the
last page. -/
theorem C8_spread_sampling_counterexample :
    visionWorkerSampledIndices 40 3 = [0, 1, 2] ∧
    (39 : ℤ) ∉ visionWorkerSampledIndices 40 3 := by
  refine ⟨by decide, by decide⟩

/-- C8 amended: `_vision_worker` passes the explicit override
`page_indices=list(range(n_pages))` to `VisionExtractor.extract`, so the
pages actually sampled and scored are the first `min(n_pages, page_count)`
pages of the document; the evenly-spread sample including the first and
last page is computed by `_spread_indices` but only on the default path
that the orchestration never takes. -/
theorem C8_spread_sampling_amended :
    (∀ (total nPages : Nat),
      visionWorkerSampledIndices total nPages
        = (List.range (min nPages total)).map Int.ofNat) ∧
    (∀ (total n : Nat), 1 ≤ total → 2 ≤ n →
      (0 : ℤ) ∈ spreadIndices total n ∧ ((total : ℤ) - 1) ∈ spreadIndices total n) := by
  constructor
  · intro total nPages
    unfold visionWorkerSampledIndices visionExtractIndices
    exact filter_range_valid total nPages
  · intro total n h1 h2
    exact spread_includes_ends total n h1 h2

/-- Witness for the amended C8 at concrete inputs: a 40-page document with
3 requested pages. -/
theorem C8_spread_sampling_amended_witness :
    visionWorkerSampledIndices 40 3 = (List.range (min 3 40)).map Int.ofNat ∧
    ((0 : ℤ) ∈ spreadIndices 40 3 ∧ ((40 : ℤ) - 1) ∈ spreadIndices 40 3) :=
  ⟨C8_spread_sampling_amended.1 40 3,
   C8_spread_sampling_amended.2 40 3 (by decide) (by decide)⟩
